import Mathlib

/-!
# The ADPF performance-hint adapter (`base/adpf_perfhintmgr.{hpp,cpp}`)

A shallow embedding of `AdpfPerfHintMgr`, the adapter that forwards work-duration
measurements to the Android performance-hint service.

* The adapter object is the structure `AdpfPerfHintMgr`: three nullable handles, the GPU
  timestamp period with its flag, and the cached target work duration.
* The performance-hint service is outside the repository.  It is modelled by `Platform`
  (the calls received so far and the contents of the live `AWorkDuration` objects) and by
  `Env` (the value of `__ANDROID_API__` the file is compiled with and what the service
  answers to the calls that return something).
* Every member function is a function on `World`, the adapter together with the platform.
* `int64_t` values are integers; the only arithmetic done on them is the binary32 product
  in `setActualGpuDurationNanos`, modelled by `Float32` below.
* The `ALOGI` lines only write to the Android log; they are not part of the model.
-/

namespace Adpf

/-! ## binary32 arithmetic, as far as `gpu_timestamp_period_ * gpu_duration` needs it -/

/-- A C++ `float` (IEEE-754 binary32).  A finite value is `mant * 2 ^ exp`; the sign of a
zero is not kept, since it is lost anyway by the conversion to `int64_t`.  The header is
for Android only (`#if defined(__ANDROID__)`), and on every Android ABI a `float`
expression is evaluated in binary32 itself, not in a wider format. -/
inductive Float32 where
  | finite (mant : Int) (exp : Int)
  | infinite (negative : Bool)
  | nan
deriving DecidableEq, Repr

/-- Worker of `bitLength`, with fuel. -/
def bitLengthAux : Nat → Nat → Nat
  | 0, _ => 0
  | fuel + 1, n => if n = 0 then 0 else bitLengthAux fuel (n / 2) + 1

/-- Number of binary digits of `n` (`0` for `0`). -/
def bitLength (n : Nat) : Nat := bitLengthAux n n

/-- The quotient `n / 2 ^ shift` rounded to the nearest integer, ties to even. -/
def roundHalfEven (n : Nat) (shift : Nat) : Nat :=
  let q := n / 2 ^ shift
  let r := n % 2 ^ shift
  if 2 ^ shift < 2 * r ∨ (2 * r = 2 ^ shift ∧ q % 2 = 1) then q + 1 else q

/-- Rounding of the exact value `m * 2 ^ e` to binary32 in the default rounding mode
(to nearest, ties to even): 24 significant bits, least exponent `-149` (subnormals),
overflow to infinity from `2 ^ 128` on. -/
def Float32.ofDyadic (m e : Int) : Float32 :=
  if m = 0 then .finite 0 0
  else
    let n := m.natAbs
    let k := max (e + bitLength n - 24) (-149)
    if k ≤ e then
      if 128 < e + bitLength n then .infinite (decide (m < 0)) else .finite m e
    else
      let r := roundHalfEven n (k - e).toNat
      if 104 < k ∨ (k = 104 ∧ 2 ^ 24 ≤ r) then .infinite (decide (m < 0))
      else .finite (Int.sign m * r) k

/-- Conversion `int64_t → float` (the usual arithmetic conversion of the integer operand
of a `float * int64_t` product). -/
def Float32.ofInt64 (d : Int) : Float32 := Float32.ofDyadic d 0

/-- Product of two `float`s: the exact product rounded once. -/
def Float32.mul : Float32 → Float32 → Float32
  | .finite m₁ e₁, .finite m₂ e₂ => Float32.ofDyadic (m₁ * m₂) (e₁ + e₂)
  | .finite m _, .infinite s => if m = 0 then .nan else .infinite (xor (decide (m < 0)) s)
  | .infinite s, .finite m _ => if m = 0 then .nan else .infinite (xor s (decide (m < 0)))
  | .infinite s₁, .infinite s₂ => .infinite (xor s₁ s₂)
  | _, _ => .nan

/-- Conversion `float → int64_t`: the fractional part is discarded (truncation toward
zero); the behaviour is undefined (`none`) when the truncated value is not an `int64_t`,
in particular for infinities and NaN. -/
def Float32.toInt64 : Float32 → Option Int
  | .finite m e =>
    let v := if 0 ≤ e then m * 2 ^ e.toNat else Int.tdiv m (2 ^ (-e).toNat)
    if -2 ^ 63 ≤ v ∧ v < 2 ^ 63 then some v else none
  | _ => none

/-- The integers binary32 holds exactly: those whose binary digits below the 24 leading
ones are all zero (every `d` with `|d| ≤ 2 ^ 24` among them). -/
def Float32.isExact (d : Int) : Bool :=
  d.natAbs % 2 ^ (bitLength d.natAbs - 24) == 0

/-! ## The platform: the performance-hint service of `<android/performance_hint.h>` -/

/-- A non-null pointer handed out by the platform. -/
abbrev Handle := Nat

/-- Modelled from the spec: the platform's `AWorkDuration` object, "a mutable accumulator
holding: start timestamp, actual CPU duration, actual GPU duration, actual total
duration" (all in nanoseconds). -/
structure AWorkDuration where
  workPeriodStartTimestampNanos : Int
  actualCpuDurationNanos : Int
  actualGpuDurationNanos : Int
  actualTotalDurationNanos : Int
deriving DecidableEq, Repr

/-- The "empty work-duration record" a fresh `AWorkDuration` holds. -/
def AWorkDuration.empty : AWorkDuration := ⟨0, 0, 0, 0⟩

/-- One call into the platform, with its arguments.  A report carries along what the
`AWorkDuration` it points to holds when the call is made. -/
inductive PlatformCall where
  | APerformanceHint_getManager
  | APerformanceHint_createSession (manager : Option Handle) (thread_ids : List Int)
      (size : Nat) (target : Int)
  | APerformanceHint_closeSession (session : Handle)
  | AWorkDuration_create
  | AWorkDuration_release (wd : Handle)
  | AWorkDuration_setWorkPeriodStartTimestampNanos (wd : Handle) (v : Int)
  | AWorkDuration_setActualCpuDurationNanos (wd : Handle) (v : Int)
  | AWorkDuration_setActualGpuDurationNanos (wd : Handle) (v : Int)
  | AWorkDuration_setActualTotalDurationNanos (wd : Handle) (v : Int)
  | APerformanceHint_updateTargetWorkDuration (session : Handle) (target : Int)
  | APerformanceHint_reportActualWorkDuration2 (session : Handle) (wd : Handle)
      (sent : AWorkDuration)
deriving DecidableEq, Repr

/-- Recogniser of the session-create call. -/
def PlatformCall.isCreateSession : PlatformCall → Bool
  | .APerformanceHint_createSession _ _ _ _ => true
  | _ => false

/-- Recogniser of the session-close call. -/
def PlatformCall.isCloseSession : PlatformCall → Bool
  | .APerformanceHint_closeSession _ => true
  | _ => false

/-- Recogniser of the record-create call. -/
def PlatformCall.isWorkDurationCreate : PlatformCall → Bool
  | .AWorkDuration_create => true
  | _ => false

/-- Recogniser of the record-release call. -/
def PlatformCall.isWorkDurationRelease : PlatformCall → Bool
  | .AWorkDuration_release _ => true
  | _ => false

/-- State of the platform: the calls it has received, oldest first, and the contents of
the `AWorkDuration` objects (the first entry for a handle is the current one). -/
structure Platform where
  calls : List PlatformCall
  durations : List (Handle × AWorkDuration)
deriving DecidableEq, Repr

/-- What the code is compiled against and run on: the value of `__ANDROID_API__` and the
answers of the platform calls that return a value.  Each answer may depend on all the calls
received before and on the arguments of the call. -/
structure Env where
  ANDROID_API : Nat
  getManager : List PlatformCall → Option Handle
  createSession : List PlatformCall → Option Handle → List Int → Nat → Int → Option Handle
  workDurationCreate : List PlatformCall → Option Handle
  updateTargetWorkDuration : List PlatformCall → Handle → Int → Int

/-- The platform after one more call. -/
def Platform.record (p : Platform) (c : PlatformCall) : Platform :=
  { p with calls := p.calls ++ [c] }

/-- Contents of the `AWorkDuration` object behind `wd`. -/
def Platform.duration (p : Platform) (wd : Handle) : AWorkDuration :=
  (p.durations.lookup wd).getD AWorkDuration.empty

/-- Overwrite the `AWorkDuration` object behind `wd`. -/
def Platform.store (p : Platform) (wd : Handle) (r : AWorkDuration) : Platform :=
  { p with durations := (wd, r) :: p.durations }

/-- Modelled from the spec: "Acquire manager handle (singleton accessor, no arguments)";
the handle is absent where the facility is unsupported. -/
def APerformanceHint_getManager (env : Env) (p : Platform) : Option Handle × Platform :=
  (env.getManager p.calls, p.record .APerformanceHint_getManager)

/-- Modelled from the spec: "Create session (manager handle, thread-identifier array,
count, initial target nanoseconds) → session handle or null". -/
def APerformanceHint_createSession (env : Env) (p : Platform) (manager : Option Handle)
    (thread_ids : List Int) (size : Nat) (target : Int) : Option Handle × Platform :=
  (env.createSession p.calls manager thread_ids size target,
    p.record (.APerformanceHint_createSession manager thread_ids size target))

/-- Modelled from the spec: "Close session (session handle) — releases platform
resources". -/
def APerformanceHint_closeSession (p : Platform) (session : Handle) : Platform :=
  p.record (.APerformanceHint_closeSession session)

/-- Modelled from the spec: "Create / release a work-duration accumulator handle"; a new
accumulator is an "empty work-duration record". -/
def AWorkDuration_create (env : Env) (p : Platform) : Option Handle × Platform :=
  match env.workDurationCreate p.calls with
  | some wd => (some wd, (p.record .AWorkDuration_create).store wd AWorkDuration.empty)
  | none => (none, p.record .AWorkDuration_create)

/-- Modelled from the spec: "Create / release a work-duration accumulator handle". -/
def AWorkDuration_release (p : Platform) (wd : Handle) : Platform :=
  { calls := p.calls ++ [.AWorkDuration_release wd],
    durations := p.durations.filter (fun e => e.1 != wd) }

/-- Modelled from the spec: one of the "four setter calls on the accumulator (start
timestamp, CPU duration, GPU duration, total duration), each taking a nanosecond value";
"fields are overwritten (not accumulated) by each setter call". -/
def AWorkDuration_setWorkPeriodStartTimestampNanos (p : Platform) (wd : Handle)
    (v : Int) : Platform :=
  (p.record (.AWorkDuration_setWorkPeriodStartTimestampNanos wd v)).store wd
    { p.duration wd with workPeriodStartTimestampNanos := v }

/-- Modelled from the spec: the accumulator's CPU-duration setter (see the start-timestamp
setter). -/
def AWorkDuration_setActualCpuDurationNanos (p : Platform) (wd : Handle)
    (v : Int) : Platform :=
  (p.record (.AWorkDuration_setActualCpuDurationNanos wd v)).store wd
    { p.duration wd with actualCpuDurationNanos := v }

/-- Modelled from the spec: the accumulator's GPU-duration setter (see the start-timestamp
setter). -/
def AWorkDuration_setActualGpuDurationNanos (p : Platform) (wd : Handle)
    (v : Int) : Platform :=
  (p.record (.AWorkDuration_setActualGpuDurationNanos wd v)).store wd
    { p.duration wd with actualGpuDurationNanos := v }

/-- Modelled from the spec: the accumulator's total-duration setter (see the
start-timestamp setter). -/
def AWorkDuration_setActualTotalDurationNanos (p : Platform) (wd : Handle)
    (v : Int) : Platform :=
  (p.record (.AWorkDuration_setActualTotalDurationNanos wd v)).store wd
    { p.duration wd with actualTotalDurationNanos := v }

/-- Modelled from the spec: "Update-target call (session handle, new target nanoseconds)
→ integer result code, 0 meaning success". -/
def APerformanceHint_updateTargetWorkDuration (env : Env) (p : Platform)
    (session : Handle) (target : Int) : Int × Platform :=
  (env.updateTargetWorkDuration p.calls session target,
    p.record (.APerformanceHint_updateTargetWorkDuration session target))

/-- Modelled from the spec: "Report call (session handle, accumulator handle) — no return
value"; the accumulator is read, not written. -/
def APerformanceHint_reportActualWorkDuration2 (p : Platform) (session : Handle)
    (wd : Handle) : Platform :=
  p.record (.APerformanceHint_reportActualWorkDuration2 session wd (p.duration wd))

/-! ## The adapter -/

/-- The macro `DEFAULT_TARGET_NS` of the header. -/
def DEFAULT_TARGET_NS : Int := 16666666

/-- The data members of `class AdpfPerfHintMgr`; a null pointer is `none`. -/
structure AdpfPerfHintMgr where
  performance_hint_manager_ : Option Handle
  performance_hint_session_ : Option Handle
  work_duration_ : Option Handle
  gpu_timestamp_period_set_ : Bool
  gpu_timestamp_period_ : Float32
  target_work_duration_ : Int
deriving DecidableEq, Repr

/-- The adapter object together with the platform it talks to. -/
structure World where
  mgr : AdpfPerfHintMgr
  platform : Platform
deriving DecidableEq, Repr

namespace AdpfPerfHintMgr

/-- The inline getter `getTargetWorkDuration` of the header. -/
def getTargetWorkDuration (this : AdpfPerfHintMgr) : Int := this.target_work_duration_

/-- `AdpfPerfHintMgr::initializePerformanceHintManager`.  The target is stored first; the
three platform calls are compiled in from API level 35 on and are not guarded. -/
def initializePerformanceHintManager (env : Env) (thread_ids : List Int)
    (thread_ids_size : Nat) (target_work_duration : Int) (w : World) : World :=
  let this := { w.mgr with target_work_duration_ := target_work_duration }
  if 35 ≤ env.ANDROID_API then
    let (manager, p₁) := APerformanceHint_getManager env w.platform
    let (session, p₂) :=
      APerformanceHint_createSession env p₁ manager thread_ids thread_ids_size
        target_work_duration
    let (wd, p₃) := AWorkDuration_create env p₂
    { mgr := { this with
        performance_hint_manager_ := manager
        performance_hint_session_ := session
        work_duration_ := wd },
      platform := p₃ }
  else
    { w with mgr := this }

/-- `AdpfPerfHintMgr::uninitializePerformanceHintManager`: release the record if there is
one, close the session if there is one, forget the manager. -/
def uninitializePerformanceHintManager (env : Env) (w : World) : World :=
  if 35 ≤ env.ANDROID_API then
    let w₁ : World :=
      match w.mgr.work_duration_ with
      | some wd =>
        { mgr := { w.mgr with work_duration_ := none },
          platform := AWorkDuration_release w.platform wd }
      | none => w
    let w₂ : World :=
      match w₁.mgr.performance_hint_session_ with
      | some session =>
        { mgr := { w₁.mgr with performance_hint_session_ := none },
          platform := APerformanceHint_closeSession w₁.platform session }
      | none => w₁
    { w₂ with mgr := { w₂.mgr with performance_hint_manager_ := none } }
  else
    w

/-- The constructor `AdpfPerfHintMgr::AdpfPerfHintMgr()`; `tid` is what `gettid()`
returns.  `target_work_duration_` has no initialiser; the call of
`initializePerformanceHintManager` assigns it before anything reads it. -/
def new (env : Env) (tid : Int) (p : Platform) : World :=
  initializePerformanceHintManager env [tid] 1 DEFAULT_TARGET_NS
    { mgr :=
        { performance_hint_manager_ := none
          performance_hint_session_ := none
          work_duration_ := none
          gpu_timestamp_period_set_ := false
          gpu_timestamp_period_ := .finite 1 0
          target_work_duration_ := 0 },
      platform := p }

/-- The destructor `AdpfPerfHintMgr::~AdpfPerfHintMgr()`. -/
def delete (env : Env) (w : World) : World := uninitializePerformanceHintManager env w

/-- `AdpfPerfHintMgr::setGpuTimestampPeriod`. -/
def setGpuTimestampPeriod (timestamp_period : Float32) (w : World) : World :=
  { w with mgr := { w.mgr with
      gpu_timestamp_period_set_ := true
      gpu_timestamp_period_ := timestamp_period } }

/-- `AdpfPerfHintMgr::setWorkPeriodStartTimestampNanos`. -/
def setWorkPeriodStartTimestampNanos (env : Env) (cpu_timestamp : Int) (w : World) : World :=
  match w.mgr.performance_hint_manager_, w.mgr.performance_hint_session_,
      w.mgr.work_duration_ with
  | some _, some _, some wd =>
    if 35 ≤ env.ANDROID_API then
      { w with platform :=
          AWorkDuration_setWorkPeriodStartTimestampNanos w.platform wd cpu_timestamp }
    else w
  | _, _, _ => w

/-- `AdpfPerfHintMgr::setActualCpuDurationNanos`. -/
def setActualCpuDurationNanos (env : Env) (cpu_duration : Int) (w : World) : World :=
  match w.mgr.performance_hint_manager_, w.mgr.performance_hint_session_,
      w.mgr.work_duration_ with
  | some _, some _, some wd =>
    if 35 ≤ env.ANDROID_API then
      { w with platform := AWorkDuration_setActualCpuDurationNanos w.platform wd cpu_duration }
    else w
  | _, _, _ => w

/-- The local `sent_duration` of `setActualGpuDurationNanos`: `gpu_duration`, or with
`apply_multiplier` the `float` product `gpu_timestamp_period_ * gpu_duration` converted
back to `int64_t` (`none` where that conversion is undefined). -/
def sent_duration (gpu_timestamp_period_ : Float32) (gpu_duration : Int)
    (apply_multiplier : Bool) : Option Int :=
  if apply_multiplier then
    (Float32.mul gpu_timestamp_period_ (Float32.ofInt64 gpu_duration)).toInt64
  else
    some gpu_duration

/-- `AdpfPerfHintMgr::setActualGpuDurationNanos`; `none` is undefined behaviour (of the
`float → int64_t` conversion). -/
def setActualGpuDurationNanos (env : Env) (gpu_duration : Int) (apply_multiplier : Bool)
    (w : World) : Option World :=
  match w.mgr.performance_hint_manager_, w.mgr.performance_hint_session_,
      w.mgr.work_duration_ with
  | some _, some _, some wd =>
    if 35 ≤ env.ANDROID_API then
      match sent_duration w.mgr.gpu_timestamp_period_ gpu_duration apply_multiplier with
      | some sent =>
        some { w with platform := AWorkDuration_setActualGpuDurationNanos w.platform wd sent }
      | none => none
    else some w
  | _, _, _ => some w

/-- `AdpfPerfHintMgr::setActualTotalDurationNanos`. -/
def setActualTotalDurationNanos (env : Env) (cpu_duration : Int) (w : World) : World :=
  match w.mgr.performance_hint_manager_, w.mgr.performance_hint_session_,
      w.mgr.work_duration_ with
  | some _, some _, some wd =>
    if 35 ≤ env.ANDROID_API then
      { w with platform :=
          AWorkDuration_setActualTotalDurationNanos w.platform wd cpu_duration }
    else w
  | _, _, _ => w

/-- `AdpfPerfHintMgr::updateTargetWorkDuration`. -/
def updateTargetWorkDuration (env : Env) (target_work_duration : Int) (w : World) : World :=
  match w.mgr.performance_hint_manager_, w.mgr.performance_hint_session_,
      w.mgr.work_duration_ with
  | some _, some session, some _ =>
    if 35 ≤ env.ANDROID_API then
      if w.mgr.target_work_duration_ ≠ target_work_duration then
        let (result, p) :=
          APerformanceHint_updateTargetWorkDuration env w.platform session
            target_work_duration
        if result = 0 then
          { mgr := { w.mgr with target_work_duration_ := target_work_duration },
            platform := p }
        else { w with platform := p }
      else w
    else w
  | _, _, _ => w

/-- `AdpfPerfHintMgr::reportActualWorkDuration`. -/
def reportActualWorkDuration (env : Env) (w : World) : World :=
  match w.mgr.performance_hint_manager_, w.mgr.performance_hint_session_,
      w.mgr.work_duration_ with
  | some _, some session, some wd =>
    if 35 ≤ env.ANDROID_API then
      { w with platform := APerformanceHint_reportActualWorkDuration2 w.platform session wd }
    else w
  | _, _, _ => w

/-- The guard of every forwarding member function: manager, session and record handle are
all non-null. -/
def active (this : AdpfPerfHintMgr) : Prop :=
  this.performance_hint_manager_ ≠ none ∧ this.performance_hint_session_ ≠ none ∧
    this.work_duration_ ≠ none

instance (this : AdpfPerfHintMgr) : Decidable this.active := by
  unfold active; infer_instance

end AdpfPerfHintMgr

/-! ## Sequences of calls of the public member functions -/

/-- A call of one of the public member functions of the adapter, with its arguments. -/
inductive Call where
  | initializePerformanceHintManager (thread_ids : List Int) (thread_ids_size : Nat)
      (target_work_duration : Int)
  | uninitializePerformanceHintManager
  | setGpuTimestampPeriod (timestamp_period : Float32)
  | setWorkPeriodStartTimestampNanos (cpu_timestamp : Int)
  | setActualCpuDurationNanos (cpu_duration : Int)
  | setActualGpuDurationNanos (gpu_duration : Int) (apply_multiplier : Bool)
  | setActualTotalDurationNanos (cpu_duration : Int)
  | updateTargetWorkDuration (target_work_duration : Int)
  | reportActualWorkDuration
deriving DecidableEq, Repr

/-- The six member functions that forward to the session or to the record: the four
setters, the target update and the report. -/
def Call.forwards : Call → Bool
  | .setWorkPeriodStartTimestampNanos _ => true
  | .setActualCpuDurationNanos _ => true
  | .setActualGpuDurationNanos _ _ => true
  | .setActualTotalDurationNanos _ => true
  | .updateTargetWorkDuration _ => true
  | .reportActualWorkDuration => true
  | _ => false

/-- Effect of one call (`none`: undefined behaviour). -/
def Call.apply (env : Env) : Call → World → Option World
  | .initializePerformanceHintManager ids n t, w =>
    some (AdpfPerfHintMgr.initializePerformanceHintManager env ids n t w)
  | .uninitializePerformanceHintManager, w =>
    some (AdpfPerfHintMgr.uninitializePerformanceHintManager env w)
  | .setGpuTimestampPeriod f, w => some (AdpfPerfHintMgr.setGpuTimestampPeriod f w)
  | .setWorkPeriodStartTimestampNanos t, w =>
    some (AdpfPerfHintMgr.setWorkPeriodStartTimestampNanos env t w)
  | .setActualCpuDurationNanos d, w => some (AdpfPerfHintMgr.setActualCpuDurationNanos env d w)
  | .setActualGpuDurationNanos d b, w => AdpfPerfHintMgr.setActualGpuDurationNanos env d b w
  | .setActualTotalDurationNanos d, w =>
    some (AdpfPerfHintMgr.setActualTotalDurationNanos env d w)
  | .updateTargetWorkDuration t, w => some (AdpfPerfHintMgr.updateTargetWorkDuration env t w)
  | .reportActualWorkDuration, w => some (AdpfPerfHintMgr.reportActualWorkDuration env w)

/-- Effect of a sequence of calls, first call first. -/
def run (env : Env) : List Call → World → Option World
  | [], w => some w
  | c :: cs, w => (c.apply env w).bind (run env cs)

/-- The handles are null wherever the platform calls are compiled out: below API level 35
nothing ever assigns them. -/
def Consistent (env : Env) (w : World) : Prop :=
  env.ANDROID_API < 35 →
    w.mgr.performance_hint_manager_ = none ∧ w.mgr.performance_hint_session_ = none ∧
      w.mgr.work_duration_ = none

instance instDecidableConsistent (env : Env) (w : World) : Decidable (Consistent env w) := by
  unfold Consistent; infer_instance

/-- The worlds that arise from constructing the adapter and calling its member
functions. -/
inductive Reachable (env : Env) : World → Prop where
  | new (tid : Int) (p : Platform) : Reachable env (AdpfPerfHintMgr.new env tid p)
  | call (c : Call) (w w' : World) :
      Reachable env w → c.apply env w = some w' → Reachable env w'

/-- The calls a world has received beyond those of an earlier world. -/
def newCalls (before after : World) : List PlatformCall :=
  after.platform.calls.drop before.platform.calls.length

/-! ## Concrete environments used in the examples -/

/-- A platform with the facility: manager `1`, session `2`, record `3`, every target
update accepted. -/
def envOk : Env :=
  { ANDROID_API := 35
    getManager := fun _ => some 1
    createSession := fun _ _ _ _ _ => some 2
    workDurationCreate := fun _ => some 3
    updateTargetWorkDuration := fun _ _ _ => 0 }

/-- As `envOk`, but every target update is rejected with result `-1`. -/
def envReject : Env := { envOk with updateTargetWorkDuration := fun _ _ _ => -1 }

/-- As `envOk`, but session creation fails (null session). -/
def envNoSession : Env := { envOk with createSession := fun _ _ _ _ _ => none }

/-- The platform before any call. -/
def Platform.fresh : Platform := { calls := [], durations := [] }

/-- An adapter that was never initialised: all handles null. -/
def World.idle : World :=
  { mgr :=
      { performance_hint_manager_ := none
        performance_hint_session_ := none
        work_duration_ := none
        gpu_timestamp_period_set_ := false
        gpu_timestamp_period_ := .finite 1 0
        target_work_duration_ := DEFAULT_TARGET_NS },
    platform := Platform.fresh }

/-- The active adapter right after construction on `envOk` (thread id `7`). -/
def World.started : World := AdpfPerfHintMgr.new envOk 7 Platform.fresh

/-! ## Unfolding the guard -/

namespace AdpfPerfHintMgr

/-- An active adapter exists only where the platform calls are compiled in. -/
theorem api_of_active {env : Env} {w : World} (hcons : Consistent env w)
    (hact : w.mgr.active) : 35 ≤ env.ANDROID_API := by
  by_contra h
  exact hact.1 (hcons (by omega)).1

/-- The three handles of an active adapter. -/
theorem handles_of_active {this : AdpfPerfHintMgr} (hact : this.active) :
    ∃ manager session wd, this.performance_hint_manager_ = some manager ∧
      this.performance_hint_session_ = some session ∧ this.work_duration_ = some wd := by
  obtain ⟨h₁, h₂, h₃⟩ := hact
  obtain ⟨manager, hm⟩ := Option.ne_none_iff_exists'.mp h₁
  obtain ⟨session, hs⟩ := Option.ne_none_iff_exists'.mp h₂
  obtain ⟨wd, hw⟩ := Option.ne_none_iff_exists'.mp h₃
  exact ⟨manager, session, wd, hm, hs, hw⟩

/-- The target update on an active adapter, when the requested target is not the cached
one: one platform call, and the cache follows on result `0` only. -/
theorem updateTargetWorkDuration_active {env : Env} {w : World} {manager session wd : Handle}
    (h35 : 35 ≤ env.ANDROID_API)
    (hm : w.mgr.performance_hint_manager_ = some manager)
    (hs : w.mgr.performance_hint_session_ = some session)
    (hw : w.mgr.work_duration_ = some wd) (D : Int)
    (hne : w.mgr.target_work_duration_ ≠ D) :
    updateTargetWorkDuration env D w =
      if env.updateTargetWorkDuration w.platform.calls session D = 0 then
        { mgr := { w.mgr with target_work_duration_ := D },
          platform := w.platform.record (.APerformanceHint_updateTargetWorkDuration session D) }
      else
        { w with platform :=
            w.platform.record (.APerformanceHint_updateTargetWorkDuration session D) } := by
  simp [updateTargetWorkDuration, hm, hs, hw, h35, hne,
    APerformanceHint_updateTargetWorkDuration]

/-- The target update does nothing at all when the requested target is the cached one. -/
theorem updateTargetWorkDuration_same (env : Env) (w : World) :
    updateTargetWorkDuration env w.mgr.target_work_duration_ w = w := by
  unfold updateTargetWorkDuration
  split <;> simp

end AdpfPerfHintMgr

/-! ## The target update -/

open AdpfPerfHintMgr

/-- C1. On an active adapter with cached target `C`, a target update to `D ≠ C` that the
platform rejects (non-zero result) is forwarded to the platform once and leaves the cached
target (and the whole adapter object) as it was; the next update to the same `D` is
forwarded to the platform again. -/
theorem updateTargetWorkDuration_rejected (env : Env) (w : World) (session : Handle)
    (D : Int) (hact : w.mgr.active) (hcons : Consistent env w)
    (hs : w.mgr.performance_hint_session_ = some session)
    (hne : D ≠ w.mgr.getTargetWorkDuration)
    (hrej : env.updateTargetWorkDuration w.platform.calls session D ≠ 0) :
    (updateTargetWorkDuration env D w).mgr.getTargetWorkDuration
        = w.mgr.getTargetWorkDuration ∧
      (updateTargetWorkDuration env D w).mgr = w.mgr ∧
      (updateTargetWorkDuration env D w).platform.calls
        = w.platform.calls ++ [.APerformanceHint_updateTargetWorkDuration session D] ∧
      (updateTargetWorkDuration env D (updateTargetWorkDuration env D w)).platform.calls
        = (updateTargetWorkDuration env D w).platform.calls
            ++ [.APerformanceHint_updateTargetWorkDuration session D] := by
  have h35 := api_of_active hcons hact
  obtain ⟨manager, session', wd, hm, hs', hw⟩ := handles_of_active hact
  obtain rfl : session' = session := by rw [hs] at hs'; exact (Option.some.inj hs').symm
  have hne' : w.mgr.target_work_duration_ ≠ D := fun h => hne h.symm
  have h₁ : updateTargetWorkDuration env D w =
      { w with platform :=
          w.platform.record (.APerformanceHint_updateTargetWorkDuration session' D) } := by
    rw [updateTargetWorkDuration_active h35 hm hs hw D hne', if_neg hrej]
  rw [h₁]
  refine ⟨rfl, rfl, rfl, ?_⟩
  have h₂ := updateTargetWorkDuration_active
    (w := { w with platform :=
      w.platform.record (.APerformanceHint_updateTargetWorkDuration session' D) })
    h35 hm hs hw D hne'
  rw [h₂]
  split <;> rfl

/-- C1, at an instance: the adapter constructed on a platform that rejects every target
update, asked for 8333333 ns. -/
theorem updateTargetWorkDuration_rejected_witness :
    (updateTargetWorkDuration envReject 8333333
        (AdpfPerfHintMgr.new envReject 7 Platform.fresh)).mgr.getTargetWorkDuration
      = DEFAULT_TARGET_NS ∧
    (updateTargetWorkDuration envReject 8333333 (updateTargetWorkDuration envReject 8333333
        (AdpfPerfHintMgr.new envReject 7 Platform.fresh))).platform.calls
      = (updateTargetWorkDuration envReject 8333333
          (AdpfPerfHintMgr.new envReject 7 Platform.fresh)).platform.calls
        ++ [.APerformanceHint_updateTargetWorkDuration 2 8333333] :=
  have h := updateTargetWorkDuration_rejected envReject
    (AdpfPerfHintMgr.new envReject 7 Platform.fresh) 2 8333333
    (by decide) (by decide) (by decide) (by decide) (by decide)
  ⟨h.1, h.2.2.2⟩

/-- C2. On an active adapter with cached target `C`, a target update to `D ≠ C` that the
platform accepts (result `0`) is forwarded once and makes `D` the cached target; an
immediately following update to `D` makes no platform call and changes nothing. -/
theorem updateTargetWorkDuration_accepted (env : Env) (w : World) (session : Handle)
    (D : Int) (hact : w.mgr.active) (hcons : Consistent env w)
    (hs : w.mgr.performance_hint_session_ = some session)
    (hne : D ≠ w.mgr.getTargetWorkDuration)
    (hok : env.updateTargetWorkDuration w.platform.calls session D = 0) :
    (updateTargetWorkDuration env D w).mgr.getTargetWorkDuration = D ∧
      (updateTargetWorkDuration env D w).platform.calls
        = w.platform.calls ++ [.APerformanceHint_updateTargetWorkDuration session D] ∧
      updateTargetWorkDuration env D (updateTargetWorkDuration env D w)
        = updateTargetWorkDuration env D w := by
  have h35 := api_of_active hcons hact
  obtain ⟨manager, session', wd, hm, hs', hw⟩ := handles_of_active hact
  obtain rfl : session' = session := by rw [hs] at hs'; exact (Option.some.inj hs').symm
  have hne' : w.mgr.target_work_duration_ ≠ D := fun h => hne h.symm
  have h₁ : updateTargetWorkDuration env D w =
      { mgr := { w.mgr with target_work_duration_ := D },
        platform :=
          w.platform.record (.APerformanceHint_updateTargetWorkDuration session' D) } := by
    rw [updateTargetWorkDuration_active h35 hm hs hw D hne', if_pos hok]
  rw [h₁]
  refine ⟨rfl, rfl, ?_⟩
  exact updateTargetWorkDuration_same env _

/-- C2, at an instance: the freshly constructed adapter on an accepting platform, asked
for 8333333 ns. -/
theorem updateTargetWorkDuration_accepted_witness :
    (updateTargetWorkDuration envOk 8333333 World.started).mgr.getTargetWorkDuration
      = 8333333 ∧
    updateTargetWorkDuration envOk 8333333 (updateTargetWorkDuration envOk 8333333 World.started)
      = updateTargetWorkDuration envOk 8333333 World.started :=
  have h := updateTargetWorkDuration_accepted envOk World.started 2 8333333
    (by decide) (by decide) (by decide) (by decide) (by decide)
  ⟨h.1, h.2.2⟩

/-- C3. In every state of the adapter, a target update to the value that is already cached
makes no platform call and changes nothing (so the cached target stays); in particular the
first update after `initializePerformanceHintManager(thread_ids, n, D)` to the same `D` is
suppressed. -/
theorem updateTargetWorkDuration_cached (env : Env) (w : World) (D : Int)
    (thread_ids : List Int) (thread_ids_size : Nat) :
    (w.mgr.getTargetWorkDuration = D →
      updateTargetWorkDuration env D w = w ∧
        (updateTargetWorkDuration env D w).platform.calls = w.platform.calls ∧
        (updateTargetWorkDuration env D w).mgr.getTargetWorkDuration = D) ∧
    (initializePerformanceHintManager env thread_ids thread_ids_size D w).mgr.getTargetWorkDuration
      = D ∧
    updateTargetWorkDuration env D
        (initializePerformanceHintManager env thread_ids thread_ids_size D w)
      = initializePerformanceHintManager env thread_ids thread_ids_size D w := by
  have hinit : (initializePerformanceHintManager env thread_ids thread_ids_size D
      w).mgr.target_work_duration_ = D := by
    unfold initializePerformanceHintManager
    split <;> rfl
  refine ⟨?_, hinit, ?_⟩
  · intro h
    have h' : updateTargetWorkDuration env D w = w := by
      have := updateTargetWorkDuration_same env w
      rwa [show w.mgr.target_work_duration_ = D from h] at this
    rw [h']
    exact ⟨rfl, rfl, h⟩
  · have := updateTargetWorkDuration_same env
      (initializePerformanceHintManager env thread_ids thread_ids_size D w)
    rwa [hinit] at this

/-- C3, at an instance: the freshly constructed adapter, whose cached target is the
default one. -/
theorem updateTargetWorkDuration_cached_witness :
    World.started.mgr.getTargetWorkDuration = DEFAULT_TARGET_NS ∧
      updateTargetWorkDuration envOk DEFAULT_TARGET_NS World.started = World.started :=
  ⟨by decide,
    ((updateTargetWorkDuration_cached envOk World.started DEFAULT_TARGET_NS [7] 1).1
      (by decide)).1⟩

/-! ## Calls on an adapter that is not active -/

namespace AdpfPerfHintMgr

/-- The guard fails when a handle is null. -/
theorem not_active_of_some {this : AdpfPerfHintMgr} (hin : ¬ this.active)
    {manager session wd : Handle} (hm : this.performance_hint_manager_ = some manager)
    (hs : this.performance_hint_session_ = some session)
    (hw : this.work_duration_ = some wd) : False :=
  hin ⟨by simp [hm], by simp [hs], by simp [hw]⟩

theorem setWorkPeriodStartTimestampNanos_inactive (env : Env) (t : Int) {w : World}
    (hin : ¬ w.mgr.active) : setWorkPeriodStartTimestampNanos env t w = w := by
  unfold setWorkPeriodStartTimestampNanos
  split
  · rename_i hm hs hw
    exact (not_active_of_some hin hm hs hw).elim
  · rfl

theorem setActualCpuDurationNanos_inactive (env : Env) (d : Int) {w : World}
    (hin : ¬ w.mgr.active) : setActualCpuDurationNanos env d w = w := by
  unfold setActualCpuDurationNanos
  split
  · rename_i hm hs hw
    exact (not_active_of_some hin hm hs hw).elim
  · rfl

theorem setActualGpuDurationNanos_inactive (env : Env) (d : Int) (b : Bool) {w : World}
    (hin : ¬ w.mgr.active) : setActualGpuDurationNanos env d b w = some w := by
  unfold setActualGpuDurationNanos
  split
  · rename_i hm hs hw
    exact (not_active_of_some hin hm hs hw).elim
  · rfl

theorem setActualTotalDurationNanos_inactive (env : Env) (d : Int) {w : World}
    (hin : ¬ w.mgr.active) : setActualTotalDurationNanos env d w = w := by
  unfold setActualTotalDurationNanos
  split
  · rename_i hm hs hw
    exact (not_active_of_some hin hm hs hw).elim
  · rfl

theorem updateTargetWorkDuration_inactive (env : Env) (t : Int) {w : World}
    (hin : ¬ w.mgr.active) : updateTargetWorkDuration env t w = w := by
  unfold updateTargetWorkDuration
  split
  · rename_i hm hs hw
    exact (not_active_of_some hin hm hs hw).elim
  · rfl

theorem reportActualWorkDuration_inactive (env : Env) {w : World}
    (hin : ¬ w.mgr.active) : reportActualWorkDuration env w = w := by
  unfold reportActualWorkDuration
  split
  · rename_i hm hs hw
    exact (not_active_of_some hin hm hs hw).elim
  · rfl

end AdpfPerfHintMgr

/-- One forwarding call on an adapter that is not active changes nothing. -/
theorem Call.apply_inactive (env : Env) (c : Call) {w : World} (hin : ¬ w.mgr.active)
    (hc : c.forwards = true) : c.apply env w = some w := by
  cases c <;> simp [Call.forwards] at hc <;> simp only [Call.apply]
  · rw [setWorkPeriodStartTimestampNanos_inactive env _ hin]
  · rw [setActualCpuDurationNanos_inactive env _ hin]
  · rw [setActualGpuDurationNanos_inactive env _ _ hin]
  · rw [setActualTotalDurationNanos_inactive env _ hin]
  · rw [updateTargetWorkDuration_inactive env _ hin]
  · rw [reportActualWorkDuration_inactive env hin]

/-- C4. When at least one of the manager, session and record handles is null, every finite
sequence of calls of the four setters, the target update and the report, with any
arguments, is defined and returns the world it started from: the platform receives no
call (its call log, empty or not, is as before) and handles and cached target are
unchanged. -/
theorem forwarding_calls_inactive (env : Env) (w : World) (cs : List Call)
    (hin : ¬ w.mgr.active) (hcs : ∀ c ∈ cs, c.forwards = true) :
    run env cs w = some w ∧
      ∀ w', run env cs w = some w' →
        w'.platform.calls = w.platform.calls ∧
        (w.platform.calls = [] → w'.platform.calls = []) ∧
        w'.mgr.performance_hint_manager_ = w.mgr.performance_hint_manager_ ∧
        w'.mgr.performance_hint_session_ = w.mgr.performance_hint_session_ ∧
        w'.mgr.work_duration_ = w.mgr.work_duration_ ∧
        w'.mgr.getTargetWorkDuration = w.mgr.getTargetWorkDuration := by
  have hrun : run env cs w = some w := by
    induction cs with
    | nil => rfl
    | cons c cs ih =>
      have hc := hcs c (List.mem_cons_self c cs)
      have ih' := ih (fun c' hc' => hcs c' (List.mem_cons_of_mem c hc'))
      simp only [run, Call.apply_inactive env c hin hc, Option.some_bind, ih']
  refine ⟨hrun, ?_⟩
  intro w' hw'
  rw [hrun] at hw'
  obtain rfl := Option.some.inj hw'
  exact ⟨rfl, id, rfl, rfl, rfl, rfl⟩

/-- C4, at an instance: one call of each of the six on the never-initialised adapter. -/
theorem forwarding_calls_inactive_witness :
    run envOk
      [.setWorkPeriodStartTimestampNanos 5, .setActualCpuDurationNanos 6,
        .setActualGpuDurationNanos 7 true, .setActualTotalDurationNanos 8,
        .updateTargetWorkDuration 9, .reportActualWorkDuration] World.idle
      = some World.idle :=
  (forwarding_calls_inactive envOk World.idle _ (by decide) (by decide)).1

/-! ## The lifecycle: initialisation and teardown -/

/-- What `initializePerformanceHintManager` does where the platform calls are compiled
in: three calls, whatever the handles were before. -/
theorem initializePerformanceHintManager_calls {env : Env} (h35 : 35 ≤ env.ANDROID_API)
    (thread_ids : List Int) (n : Nat) (D : Int) (w : World) :
    (initializePerformanceHintManager env thread_ids n D w).platform.calls =
      w.platform.calls ++
        [.APerformanceHint_getManager,
          .APerformanceHint_createSession (env.getManager w.platform.calls) thread_ids n D,
          .AWorkDuration_create] := by
  unfold initializePerformanceHintManager
  simp only [h35, if_true, APerformanceHint_getManager, APerformanceHint_createSession,
    AWorkDuration_create, Platform.record]
  split <;> simp [Platform.store]

/-- The adapter object after `initializePerformanceHintManager` where the platform calls
are compiled in. -/
theorem initializePerformanceHintManager_mgr {env : Env} (h35 : 35 ≤ env.ANDROID_API)
    (thread_ids : List Int) (n : Nat) (D : Int) (w : World) :
    (initializePerformanceHintManager env thread_ids n D w).mgr =
      { w.mgr with
        target_work_duration_ := D
        performance_hint_manager_ := env.getManager w.platform.calls
        performance_hint_session_ :=
          env.createSession (w.platform.calls ++ [.APerformanceHint_getManager])
            (env.getManager w.platform.calls) thread_ids n D
        work_duration_ :=
          env.workDurationCreate
            (w.platform.calls ++
              [.APerformanceHint_getManager,
                .APerformanceHint_createSession (env.getManager w.platform.calls)
                  thread_ids n D]) } := by
  unfold initializePerformanceHintManager
  simp only [h35, if_true, APerformanceHint_getManager, APerformanceHint_createSession,
    AWorkDuration_create, Platform.record]
  split <;> simp_all

/-- What `uninitializePerformanceHintManager` does when both the record and the session
are there. -/
theorem uninitializePerformanceHintManager_calls {env : Env} (h35 : 35 ≤ env.ANDROID_API)
    {w : World} {session wd : Handle}
    (hs : w.mgr.performance_hint_session_ = some session)
    (hw : w.mgr.work_duration_ = some wd) :
    (uninitializePerformanceHintManager env w).platform.calls =
      w.platform.calls ++
        [.AWorkDuration_release wd, .APerformanceHint_closeSession session] := by
  simp [uninitializePerformanceHintManager, h35, hs, hw, AWorkDuration_release,
    APerformanceHint_closeSession, Platform.record]

/-- C7, as amended. Where the platform calls are compiled in (API level 35 or above) and
the platform answers session creation and record creation with non-null handles,
`initializePerformanceHintManager(thread_ids, n, D)` immediately followed by
`uninitializePerformanceHintManager()` sends the platform exactly five calls, in this
order: get-manager, session-create (with the given threads and `D`), record-create,
record-release, session-close.  So session-create and session-close occur once each,
create before close, and record-release directly before session-close.  This holds from
every state of the adapter, in particular from a torn-down one, and for every thread-id
list. -/
theorem initialize_uninitialize_calls (env : Env) (w : World) (thread_ids : List Int)
    (n : Nat) (D : Int) (session wd : Handle) (h35 : 35 ≤ env.ANDROID_API)
    (hsession : env.createSession (w.platform.calls ++ [.APerformanceHint_getManager])
      (env.getManager w.platform.calls) thread_ids n D = some session)
    (hwd : env.workDurationCreate
      (w.platform.calls ++
        [.APerformanceHint_getManager,
          .APerformanceHint_createSession (env.getManager w.platform.calls) thread_ids n D])
      = some wd) :
    newCalls w (uninitializePerformanceHintManager env
        (initializePerformanceHintManager env thread_ids n D w)) =
      [.APerformanceHint_getManager,
        .APerformanceHint_createSession (env.getManager w.platform.calls) thread_ids n D,
        .AWorkDuration_create,
        .AWorkDuration_release wd,
        .APerformanceHint_closeSession session] ∧
    (newCalls w (uninitializePerformanceHintManager env
        (initializePerformanceHintManager env thread_ids n D w))).countP
          PlatformCall.isCreateSession = 1 ∧
    (newCalls w (uninitializePerformanceHintManager env
        (initializePerformanceHintManager env thread_ids n D w))).countP
          PlatformCall.isCloseSession = 1 ∧
    (newCalls w (uninitializePerformanceHintManager env
        (initializePerformanceHintManager env thread_ids n D w))).countP
          PlatformCall.isWorkDurationRelease = 1 := by
  have hmgr := initializePerformanceHintManager_mgr h35 thread_ids n D w
  have hs : (initializePerformanceHintManager env thread_ids n D
      w).mgr.performance_hint_session_ = some session := by rw [hmgr]; exact hsession
  have hw : (initializePerformanceHintManager env thread_ids n D
      w).mgr.work_duration_ = some wd := by rw [hmgr]; exact hwd
  have hcalls : newCalls w (uninitializePerformanceHintManager env
        (initializePerformanceHintManager env thread_ids n D w)) =
      [.APerformanceHint_getManager,
        .APerformanceHint_createSession (env.getManager w.platform.calls) thread_ids n D,
        .AWorkDuration_create,
        .AWorkDuration_release wd,
        .APerformanceHint_closeSession session] := by
    unfold newCalls
    rw [uninitializePerformanceHintManager_calls h35 hs hw,
      initializePerformanceHintManager_calls h35, List.append_assoc,
      List.drop_left]
    rfl
  rw [hcalls]
  exact ⟨rfl, rfl, rfl, rfl⟩

/-- C7 as amended, at an instance: the never-initialised adapter on a platform with the
facility. -/
theorem initialize_uninitialize_calls_witness :
    newCalls World.idle (uninitializePerformanceHintManager envOk
        (initializePerformanceHintManager envOk [7] 1 DEFAULT_TARGET_NS World.idle)) =
      [.APerformanceHint_getManager,
        .APerformanceHint_createSession (some 1) [7] 1 DEFAULT_TARGET_NS,
        .AWorkDuration_create,
        .AWorkDuration_release 3,
        .APerformanceHint_closeSession 2] :=
  (initialize_uninitialize_calls envOk World.idle [7] 1 DEFAULT_TARGET_NS 2 3
    (by decide) rfl rfl).1

/-- C7 as stated fails: when the platform answers session creation with a null session,
initialisation followed by teardown of a torn-down adapter creates a session once but
never closes one. -/
theorem initialize_uninitialize_null_session :
    newCalls World.idle (uninitializePerformanceHintManager envNoSession
        (initializePerformanceHintManager envNoSession [7] 1 DEFAULT_TARGET_NS World.idle)) =
      [.APerformanceHint_getManager,
        .APerformanceHint_createSession (some 1) [7] 1 DEFAULT_TARGET_NS,
        .AWorkDuration_create,
        .AWorkDuration_release 3] ∧
    ¬ (newCalls World.idle (uninitializePerformanceHintManager envNoSession
        (initializePerformanceHintManager envNoSession [7] 1 DEFAULT_TARGET_NS
          World.idle))).countP PlatformCall.isCloseSession = 1 := by
  decide

/-- C8. Teardown is idempotent: in every state a second
`uninitializePerformanceHintManager()` returns the very world the first one produced, so
it makes no platform call; on an adapter whose three handles are null teardown makes no
platform call and changes nothing; and after teardown the three handles are null (in
every state in which handles are non-null only where the platform calls are compiled in,
which is every state that can arise). -/
theorem uninitialize_idempotent (env : Env) (w : World) :
    uninitializePerformanceHintManager env (uninitializePerformanceHintManager env w)
        = uninitializePerformanceHintManager env w ∧
      newCalls (uninitializePerformanceHintManager env w)
        (uninitializePerformanceHintManager env (uninitializePerformanceHintManager env w))
        = [] ∧
      (w.mgr.performance_hint_manager_ = none → w.mgr.performance_hint_session_ = none →
        w.mgr.work_duration_ = none → uninitializePerformanceHintManager env w = w) ∧
      (Consistent env w →
        (uninitializePerformanceHintManager env w).mgr.performance_hint_manager_ = none ∧
        (uninitializePerformanceHintManager env w).mgr.performance_hint_session_ = none ∧
        (uninitializePerformanceHintManager env w).mgr.work_duration_ = none) := by
  have hidem : uninitializePerformanceHintManager env
      (uninitializePerformanceHintManager env w)
        = uninitializePerformanceHintManager env w := by
    unfold uninitializePerformanceHintManager
    by_cases h35 : 35 ≤ env.ANDROID_API
    · simp only [h35, if_true]
      cases hw : w.mgr.work_duration_ <;> cases hs : w.mgr.performance_hint_session_ <;>
        simp [hw, hs]
    · simp [h35]
  refine ⟨hidem, ?_, ?_, ?_⟩
  · rw [hidem]; simp [newCalls]
  · intro hm hs hw
    obtain ⟨⟨manager, session, wd, _, _, _⟩, _⟩ := w
    simp only at hm hs hw
    subst hm hs hw
    unfold uninitializePerformanceHintManager
    split <;> rfl
  · intro hcons
    by_cases h35 : 35 ≤ env.ANDROID_API
    · unfold uninitializePerformanceHintManager
      simp only [h35, if_true]
      cases hw : w.mgr.work_duration_ <;> cases hs : w.mgr.performance_hint_session_ <;>
        simp [hw, hs]
    · have hnone := hcons (by omega)
      unfold uninitializePerformanceHintManager
      simp only [h35, if_false]
      exact hnone

/-- C8, at an instance: the freshly constructed adapter, and the never-initialised one. -/
theorem uninitialize_idempotent_witness :
    (uninitializePerformanceHintManager envOk World.started).mgr.performance_hint_manager_
        = none ∧
      (uninitializePerformanceHintManager envOk World.started).mgr.performance_hint_session_
        = none ∧
      (uninitializePerformanceHintManager envOk World.started).mgr.work_duration_ = none :=
  (uninitialize_idempotent envOk World.started).2.2.2 (by decide)

/-- C9 as stated fails: on the active adapter the constructor leaves behind, a second
`initializePerformanceHintManager` with the constructor's own arguments is not a no-op;
it sends get-manager, session-create and record-create again, so that two sessions have
been created and none closed. -/
theorem initialize_twice_creates_second_session :
    World.started.mgr.active ∧
    initializePerformanceHintManager envOk [7] 1 DEFAULT_TARGET_NS World.started
      ≠ World.started ∧
    newCalls World.started
        (initializePerformanceHintManager envOk [7] 1 DEFAULT_TARGET_NS World.started) =
      [.APerformanceHint_getManager,
        .APerformanceHint_createSession (some 1) [7] 1 DEFAULT_TARGET_NS,
        .AWorkDuration_create] ∧
    (initializePerformanceHintManager envOk [7] 1 DEFAULT_TARGET_NS
        World.started).platform.calls.countP PlatformCall.isCreateSession = 2 ∧
    (initializePerformanceHintManager envOk [7] 1 DEFAULT_TARGET_NS
        World.started).platform.calls.countP PlatformCall.isCloseSession = 0 := by
  decide

/-- C9, as amended. `initializePerformanceHintManager(thread_ids, n, D)` on an active
adapter is not guarded: it stores `D` as the cached target and sends the platform
get-manager, session-create and record-create once more (one further session-create, one
further record-create, no session-close and no record-release), and the three handles
become whatever the platform answers; the GPU timestamp period and its flag stay. -/
theorem initialize_when_active (env : Env) (w : World) (thread_ids : List Int) (n : Nat)
    (D : Int) (hact : w.mgr.active) (hcons : Consistent env w) :
    newCalls w (initializePerformanceHintManager env thread_ids n D w) =
      [.APerformanceHint_getManager,
        .APerformanceHint_createSession (env.getManager w.platform.calls) thread_ids n D,
        .AWorkDuration_create] ∧
    (initializePerformanceHintManager env thread_ids n D w).platform.calls.countP
        PlatformCall.isCreateSession
      = w.platform.calls.countP PlatformCall.isCreateSession + 1 ∧
    (initializePerformanceHintManager env thread_ids n D w).platform.calls.countP
        PlatformCall.isWorkDurationCreate
      = w.platform.calls.countP PlatformCall.isWorkDurationCreate + 1 ∧
    (initializePerformanceHintManager env thread_ids n D w).platform.calls.countP
        PlatformCall.isCloseSession
      = w.platform.calls.countP PlatformCall.isCloseSession ∧
    (initializePerformanceHintManager env thread_ids n D w).platform.calls.countP
        PlatformCall.isWorkDurationRelease
      = w.platform.calls.countP PlatformCall.isWorkDurationRelease ∧
    (initializePerformanceHintManager env thread_ids n D w).mgr =
      { w.mgr with
        target_work_duration_ := D
        performance_hint_manager_ := env.getManager w.platform.calls
        performance_hint_session_ :=
          env.createSession (w.platform.calls ++ [.APerformanceHint_getManager])
            (env.getManager w.platform.calls) thread_ids n D
        work_duration_ :=
          env.workDurationCreate
            (w.platform.calls ++
              [.APerformanceHint_getManager,
                .APerformanceHint_createSession (env.getManager w.platform.calls)
                  thread_ids n D]) } := by
  have h35 := api_of_active hcons hact
  have hcalls := initializePerformanceHintManager_calls h35 thread_ids n D w
  refine ⟨?_, ?_, ?_, ?_, ?_, initializePerformanceHintManager_mgr h35 thread_ids n D w⟩
  · unfold newCalls
    rw [hcalls, List.drop_left]
  all_goals
    rw [hcalls, List.countP_append]
    simp [List.countP_cons, PlatformCall.isCreateSession, PlatformCall.isCloseSession,
      PlatformCall.isWorkDurationCreate, PlatformCall.isWorkDurationRelease]

/-- C9 as amended, at an instance: the freshly constructed adapter, initialised again
with another thread and target. -/
theorem initialize_when_active_witness :
    newCalls World.started
        (initializePerformanceHintManager envOk [8] 1 8333333 World.started) =
      [.APerformanceHint_getManager,
        .APerformanceHint_createSession (some 1) [8] 1 8333333,
        .AWorkDuration_create] :=
  (initialize_when_active envOk World.started [8] 1 8333333 (by decide) (by decide)).1

/-! ## The work-duration record: setters and report -/

/-- C6. On an active adapter each of the four setters sends the platform exactly its own
setter call, which overwrites its own field of the record and nothing else, and leaves the
adapter object alone; `reportActualWorkDuration` sends exactly one report carrying the
record as it stands and writes nothing.  Hence a report, `setActualCpuDurationNanos(c)`
and a second report arrive as three calls, the second report carrying CPU duration `c`
and the start, GPU and total values of the first report. -/
theorem report_resends_record (env : Env) (w : World) (session wd : Handle)
    (hact : w.mgr.active) (hcons : Consistent env w)
    (hs : w.mgr.performance_hint_session_ = some session)
    (hw : w.mgr.work_duration_ = some wd) :
    (∀ t : Int, setWorkPeriodStartTimestampNanos env t w =
      { w with
        platform :=
          (w.platform.record (.AWorkDuration_setWorkPeriodStartTimestampNanos wd t)).store wd
            ({ w.platform.duration wd with workPeriodStartTimestampNanos := t }) }) ∧
    (∀ c : Int, setActualCpuDurationNanos env c w =
      { w with
        platform :=
          (w.platform.record (.AWorkDuration_setActualCpuDurationNanos wd c)).store wd
            ({ w.platform.duration wd with actualCpuDurationNanos := c }) }) ∧
    (∀ (g : Int) (b : Bool) (sent : Int),
      sent_duration w.mgr.gpu_timestamp_period_ g b = some sent →
      setActualGpuDurationNanos env g b w = some
        { w with
          platform :=
            (w.platform.record (.AWorkDuration_setActualGpuDurationNanos wd sent)).store wd
              ({ w.platform.duration wd with actualGpuDurationNanos := sent }) }) ∧
    (∀ t : Int, setActualTotalDurationNanos env t w =
      { w with
        platform :=
          (w.platform.record (.AWorkDuration_setActualTotalDurationNanos wd t)).store wd
            ({ w.platform.duration wd with actualTotalDurationNanos := t }) }) ∧
    reportActualWorkDuration env w =
      { w with
        platform :=
          w.platform.record
            (.APerformanceHint_reportActualWorkDuration2 session wd (w.platform.duration wd)) } ∧
    (reportActualWorkDuration env w).platform.durations = w.platform.durations ∧
    (∀ c : Int,
      (reportActualWorkDuration env
          (setActualCpuDurationNanos env c (reportActualWorkDuration env w))).platform.calls =
        w.platform.calls ++
          [.APerformanceHint_reportActualWorkDuration2 session wd (w.platform.duration wd),
            .AWorkDuration_setActualCpuDurationNanos wd c,
            .APerformanceHint_reportActualWorkDuration2 session wd
              { workPeriodStartTimestampNanos :=
                  (w.platform.duration wd).workPeriodStartTimestampNanos
                actualCpuDurationNanos := c
                actualGpuDurationNanos := (w.platform.duration wd).actualGpuDurationNanos
                actualTotalDurationNanos :=
                  (w.platform.duration wd).actualTotalDurationNanos }]) := by
  have h35 := api_of_active hcons hact
  obtain ⟨manager, session', wd', hm, hs', hw'⟩ := handles_of_active hact
  obtain rfl : session' = session := by rw [hs] at hs'; exact (Option.some.inj hs').symm
  obtain rfl : wd' = wd := by rw [hw] at hw'; exact (Option.some.inj hw').symm
  have hcpu : ∀ (w : World), w.mgr.performance_hint_manager_ = some manager →
      w.mgr.performance_hint_session_ = some session' → w.mgr.work_duration_ = some wd' →
      ∀ c : Int, setActualCpuDurationNanos env c w =
      { w with
        platform :=
          (w.platform.record (.AWorkDuration_setActualCpuDurationNanos wd' c)).store wd'
            ({ w.platform.duration wd' with actualCpuDurationNanos := c }) } := by
    intro w hm hs hw c
    simp [setActualCpuDurationNanos, hm, hs, hw, h35, AWorkDuration_setActualCpuDurationNanos]
  have hrep : ∀ (w : World), w.mgr.performance_hint_manager_ = some manager →
      w.mgr.performance_hint_session_ = some session' → w.mgr.work_duration_ = some wd' →
      reportActualWorkDuration env w =
      { w with
        platform :=
          w.platform.record
            (.APerformanceHint_reportActualWorkDuration2 session' wd'
              (w.platform.duration wd')) } := by
    intro w hm hs hw
    simp [reportActualWorkDuration, hm, hs, hw, h35,
      APerformanceHint_reportActualWorkDuration2]
  refine ⟨?_, hcpu w hm hs hw, ?_, ?_, hrep w hm hs hw, ?_, ?_⟩
  · intro t
    simp [setWorkPeriodStartTimestampNanos, hm, hs, hw, h35,
      AWorkDuration_setWorkPeriodStartTimestampNanos]
  · intro g b sent hsent
    simp [setActualGpuDurationNanos, hm, hs, hw, h35, hsent,
      AWorkDuration_setActualGpuDurationNanos]
  · intro t
    simp [setActualTotalDurationNanos, hm, hs, hw, h35,
      AWorkDuration_setActualTotalDurationNanos]
  · rw [hrep w hm hs hw]; rfl
  · intro c
    rw [hrep w hm hs hw]
    generalize hw₁ : World.mk w.mgr (w.platform.record
      (.APerformanceHint_reportActualWorkDuration2 session' wd' (w.platform.duration wd')))
      = w₁
    have hmgr₁ : w₁.mgr = w.mgr := by rw [← hw₁]
    rw [hcpu w₁ (by rw [hmgr₁]; exact hm) (by rw [hmgr₁]; exact hs)
      (by rw [hmgr₁]; exact hw)]
    generalize hw₂ : World.mk w₁.mgr ((w₁.platform.record
      (.AWorkDuration_setActualCpuDurationNanos wd' c)).store wd'
        { w₁.platform.duration wd' with actualCpuDurationNanos := c }) = w₂
    have hmgr₂ : w₂.mgr = w.mgr := by rw [← hw₂]; exact hmgr₁
    rw [hrep w₂ (by rw [hmgr₂]; exact hm) (by rw [hmgr₂]; exact hs)
      (by rw [hmgr₂]; exact hw)]
    subst hw₂ hw₁
    simp [Platform.duration, Platform.record, Platform.store, List.lookup]

/-- C6, at an instance: the freshly constructed adapter after a cycle that set the GPU
duration to 300; the next cycle sets only the CPU duration, and the 300 is sent again. -/
theorem report_resends_record_witness :
    (setActualGpuDurationNanos envOk 300 false World.started).bind
      (fun w => some (reportActualWorkDuration envOk
        (setActualCpuDurationNanos envOk 40 (reportActualWorkDuration envOk w))).platform.calls)
      = some (World.started.platform.calls ++
          [.AWorkDuration_setActualGpuDurationNanos 3 300,
            .APerformanceHint_reportActualWorkDuration2 2 3 ⟨0, 0, 300, 0⟩,
            .AWorkDuration_setActualCpuDurationNanos 3 40,
            .APerformanceHint_reportActualWorkDuration2 2 3 ⟨0, 40, 300, 0⟩]) := by
  have h := (report_resends_record envOk
    { World.started with
      platform :=
        (World.started.platform.record (.AWorkDuration_setActualGpuDurationNanos 3 300)).store 3
          ({ World.started.platform.duration 3 with actualGpuDurationNanos := 300 }) }
    2 3 (by decide) (by decide) (by decide) (by decide)).2.2.2.2.2.2 40
  have hg := (report_resends_record envOk World.started 2 3 (by decide) (by decide)
    (by decide) (by decide)).2.2.1 300 false 300 (by decide)
  rw [hg, Option.some_bind, h]
  decide

/-! ## The binary32 product of `setActualGpuDurationNanos` -/

theorem bitLengthAux_le (fuel : Nat) :
    ∀ n b : Nat, n < 2 ^ b → bitLengthAux fuel n ≤ b := by
  induction fuel with
  | zero => intro n b _; simp [bitLengthAux]
  | succ fuel ih =>
    intro n b h
    unfold bitLengthAux
    split
    · exact Nat.zero_le b
    · rename_i hn
      cases b with
      | zero => simp at h; exact absurd h hn
      | succ b =>
        have h2 : n / 2 < 2 ^ b := by
          apply Nat.div_lt_of_lt_mul
          rw [pow_succ] at h
          omega
        exact Nat.succ_le_succ (ih _ _ h2)

/-- A number below `2 ^ b` has at most `b` binary digits. -/
theorem bitLength_le {n b : Nat} (h : n < 2 ^ b) : bitLength n ≤ b :=
  bitLengthAux_le n n b h

/-- A value with at most 24 significant bits and an exponent in the binary32 range is a
binary32 number: rounding leaves it alone. -/
theorem Float32.ofDyadic_exact {m e : Int} (hne : m ≠ 0) (hm : m.natAbs < 2 ^ 24)
    (he : -149 ≤ e) (he' : e + bitLength m.natAbs ≤ 128) :
    Float32.ofDyadic m e = .finite m e := by
  have hb := bitLength_le hm
  have hk : max (e + (bitLength m.natAbs : Int) - 24) (-149) ≤ e := by
    apply max_le <;> omega
  have ho : ¬ (128 < e + (bitLength m.natAbs : Int)) := by omega
  simp only [Float32.ofDyadic, if_neg hne, if_pos hk, if_neg ho]

theorem Float32.ofDyadic_zero (e : Int) : Float32.ofDyadic 0 e = .finite 0 0 := by
  simp [Float32.ofDyadic]

/-- Zero converts to zero, whatever the exponent it is written with. -/
theorem Float32.toInt64_zero (e : Int) : (Float32.finite 0 e).toInt64 = some 0 := by
  simp [Float32.toInt64]

theorem lt_two_pow_bitLengthAux (fuel : Nat) :
    ∀ n : Nat, n ≤ fuel → n < 2 ^ bitLengthAux fuel n := by
  induction fuel with
  | zero => intro n h; simp [bitLengthAux]; omega
  | succ fuel ih =>
    intro n h
    unfold bitLengthAux
    split
    · omega
    · have h2 : n / 2 ≤ fuel := by omega
      have := ih _ h2
      rw [pow_succ]
      omega

/-- A number is below the power of two of its number of binary digits. -/
theorem lt_two_pow_bitLength (n : Nat) : n < 2 ^ bitLength n :=
  lt_two_pow_bitLengthAux n n (le_refl n)

/-- The number of binary digits, characterised. -/
theorem bitLength_le_iff {n b : Nat} : bitLength n ≤ b ↔ n < 2 ^ b :=
  ⟨fun h => lt_of_lt_of_le (lt_two_pow_bitLength n) (Nat.pow_le_pow_right (by decide) h),
    bitLength_le⟩

/-- The leading binary digit of a positive number is one. -/
theorem two_pow_pred_bitLength_le {n : Nat} (hn : n ≠ 0) : 2 ^ (bitLength n - 1) ≤ n := by
  by_contra h
  have h1 : bitLength n ≤ bitLength n - 1 := bitLength_le (by omega)
  have h0 : bitLength n = 0 := by omega
  have := lt_two_pow_bitLength n
  rw [h0] at this
  omega

/-- Appended zero digits count. -/
theorem bitLength_mul_two_pow {n : Nat} (hn : n ≠ 0) (t : Nat) :
    bitLength (n * 2 ^ t) = bitLength n + t := by
  apply le_antisymm
  · apply bitLength_le
    rw [pow_add]
    exact Nat.mul_lt_mul_of_pos_right (lt_two_pow_bitLength n) (by positivity)
  · by_contra h
    have hpos : 0 < bitLength n := by
      rcases Nat.eq_zero_or_pos (bitLength n) with h0 | h0
      · have := lt_two_pow_bitLength n
        rw [h0] at this
        omega
      · exact h0
    have h1 : bitLength (n * 2 ^ t) ≤ bitLength n - 1 + t := by omega
    have h2 : n * 2 ^ t < 2 ^ (bitLength n - 1 + t) := bitLength_le_iff.mp h1
    rw [pow_add] at h2
    have h3 : n < 2 ^ (bitLength n - 1) := Nat.lt_of_mul_lt_mul_right h2
    have := two_pow_pred_bitLength_le hn
    omega

/-- Dropping zero digits at the end does not change what binary32 holds exactly. -/
theorem Float32.isExact_mul_two_pow (a : Int) (t : Nat) :
    Float32.isExact (a * 2 ^ t) = Float32.isExact a := by
  by_cases ha : a = 0
  · subst ha; simp
  have hn : a.natAbs ≠ 0 := fun h => ha (Int.natAbs_eq_zero.mp h)
  have habs : (a * 2 ^ t).natAbs = a.natAbs * 2 ^ t := by
    rw [Int.natAbs_mul, Int.natAbs_pow]; rfl
  unfold Float32.isExact
  rw [habs, bitLength_mul_two_pow hn]
  rw [Bool.eq_iff_iff]
  simp only [beq_iff_eq]
  rw [← Nat.dvd_iff_mod_eq_zero, ← Nat.dvd_iff_mod_eq_zero]
  by_cases hB : 24 ≤ bitLength a.natAbs
  · have : bitLength a.natAbs + t - 24 = (bitLength a.natAbs - 24) + t := by omega
    rw [this, pow_add]
    exact Nat.mul_dvd_mul_iff_right (by positivity)
  · have h0 : bitLength a.natAbs - 24 = 0 := by omega
    rw [h0, pow_zero]
    constructor
    · intro _; exact one_dvd _
    · intro _
      have hle : bitLength a.natAbs + t - 24 ≤ t := by omega
      exact Dvd.dvd.mul_left (pow_dvd_pow 2 hle) _

/-- Rounding leaves a value alone that has no non-zero digit below its 24 leading ones
and is in the binary32 range: the result is the same value, written with its 24 leading
digits. -/
theorem Float32.ofDyadic_of_isExact {m e : Int} (hne : m ≠ 0)
    (hex : Float32.isExact m = true) (he : -149 ≤ e)
    (he' : e + bitLength m.natAbs ≤ 128) :
    Float32.ofDyadic m e =
      .finite (Int.sign m * ↑(m.natAbs / 2 ^ (bitLength m.natAbs - 24)))
        (e + ↑(bitLength m.natAbs - 24)) := by
  by_cases hB : bitLength m.natAbs ≤ 24
  · have h0 : bitLength m.natAbs - 24 = 0 := by omega
    rw [h0, pow_zero, Nat.div_one, Int.sign_mul_natAbs]
    simp only [Nat.cast_zero, add_zero]
    exact Float32.ofDyadic_exact hne (bitLength_le_iff.mp hB) he (by omega)
  · have hmod : m.natAbs % 2 ^ (bitLength m.natAbs - 24) = 0 := by
      simpa [Float32.isExact] using hex
    have hk : max (e + (bitLength m.natAbs : Int) - 24) (-149)
        = e + ↑(bitLength m.natAbs - 24) := by
      rw [max_eq_left (by omega)]
      omega
    have hnk : ¬ (e + (↑(bitLength m.natAbs - 24) : Int) ≤ e) := by omega
    have hsh : (e + (↑(bitLength m.natAbs - 24) : Int) - e).toNat
        = bitLength m.natAbs - 24 := by
      simp
    have hr : roundHalfEven m.natAbs (bitLength m.natAbs - 24)
        = m.natAbs / 2 ^ (bitLength m.natAbs - 24) := by
      have hpos : 0 < 2 ^ (bitLength m.natAbs - 24) := by positivity
      simp only [roundHalfEven, hmod]
      rw [if_neg]
      rintro (h | ⟨h, _⟩) <;> omega
    have hq : m.natAbs / 2 ^ (bitLength m.natAbs - 24) < 2 ^ 24 := by
      apply Nat.div_lt_of_lt_mul
      rw [← pow_add]
      have : bitLength m.natAbs - 24 + 24 = bitLength m.natAbs := by omega
      rw [this]
      exact lt_two_pow_bitLength _
    have hov : ¬ (104 < e + (↑(bitLength m.natAbs - 24) : Int) ∨
        (e + (↑(bitLength m.natAbs - 24) : Int) = 104 ∧
          2 ^ 24 ≤ m.natAbs / 2 ^ (bitLength m.natAbs - 24))) := by
      rintro (h | ⟨_, h⟩) <;> omega
    simp only [Float32.ofDyadic, if_neg hne, hk, if_neg hnk, hsh, hr, if_neg hov]

/-- A common positive factor cancels in a truncating division. -/
theorem mul_tdiv_mul_right (a : Int) {b c : Int} (hb : 0 ≤ b) (hc : 0 < c) :
    (a * c).tdiv (b * c) = a.tdiv b := by
  have hbc : 0 ≤ b * c := Int.mul_nonneg hb (le_of_lt hc)
  rcases le_total 0 a with ha | ha
  · rw [Int.tdiv_eq_ediv (Int.mul_nonneg ha (le_of_lt hc)) hbc, Int.tdiv_eq_ediv ha hb]
    exact Int.mul_ediv_mul_of_pos_left a b hc
  · have hna : 0 ≤ -a := by omega
    have h1 : (a * c).tdiv (b * c) = -((-a * c).tdiv (b * c)) := by
      rw [show -a * c = -(a * c) by ring, Int.neg_tdiv, neg_neg]
    have h2 : a.tdiv b = -((-a).tdiv b) := by rw [Int.neg_tdiv, neg_neg]
    rw [h1, h2, Int.tdiv_eq_ediv (Int.mul_nonneg hna (le_of_lt hc)) hbc,
      Int.tdiv_eq_ediv hna hb, Int.mul_ediv_mul_of_pos_left (-a) b hc]

/-- The conversion to `int64_t` depends on the value only: zero digits may be moved
between significand and exponent. -/
theorem Float32.toInt64_shift (a e : Int) (t : Nat) :
    (Float32.finite a (e + t)).toInt64 = (Float32.finite (a * 2 ^ t) e).toInt64 := by
  have hval : (if 0 ≤ e + (t : Int) then a * 2 ^ (e + t).toNat
        else Int.tdiv a (2 ^ (-(e + t)).toNat))
      = (if 0 ≤ e then a * 2 ^ t * 2 ^ e.toNat
        else Int.tdiv (a * 2 ^ t) (2 ^ (-e).toNat)) := by
    by_cases h1 : 0 ≤ e
    · have h2 : 0 ≤ e + (t : Int) := by omega
      rw [if_pos h1, if_pos h2]
      have : (e + t).toNat = t + e.toNat := by omega
      rw [this, pow_add, mul_assoc]
    · rw [if_neg h1]
      by_cases h2 : 0 ≤ e + (t : Int)
      · rw [if_pos h2]
        have : t = (e + t).toNat + (-e).toNat := by omega
        conv_rhs => rw [this, pow_add, ← mul_assoc]
        rw [Int.mul_tdiv_cancel _ (by positivity)]
      · rw [if_neg h2]
        have : (-e).toNat = (-(e + t)).toNat + t := by omega
        rw [this, pow_add]
        exact (mul_tdiv_mul_right a (by positivity) (by positivity)).symm
  simp only [Float32.toInt64, hval]

/-- Conversion of a rounded value that needed no rounding. -/
theorem Float32.toInt64_ofDyadic_of_isExact {m e : Int}
    (hex : Float32.isExact m = true) (he : -149 ≤ e)
    (he' : e + bitLength m.natAbs ≤ 128) :
    (Float32.ofDyadic m e).toInt64 = (Float32.finite m e).toInt64 := by
  by_cases hne : m = 0
  · subst hne
    rw [Float32.ofDyadic_zero, Float32.toInt64_zero, Float32.toInt64_zero]
  · rw [Float32.ofDyadic_of_isExact hne hex he he', Float32.toInt64_shift]
    have hmod : m.natAbs % 2 ^ (bitLength m.natAbs - 24) = 0 := by
      simpa [Float32.isExact] using hex
    have hn : m.natAbs / 2 ^ (bitLength m.natAbs - 24) * 2 ^ (bitLength m.natAbs - 24)
        = m.natAbs := Nat.div_mul_cancel (Nat.dvd_of_mod_eq_zero hmod)
    have : Int.sign m * ↑(m.natAbs / 2 ^ (bitLength m.natAbs - 24))
        * 2 ^ (bitLength m.natAbs - 24) = m := by
      rw [mul_assoc]
      have hc : ((m.natAbs / 2 ^ (bitLength m.natAbs - 24) : Nat) : Int)
          * 2 ^ (bitLength m.natAbs - 24) = (m.natAbs : Int) := by
        exact_mod_cast hn
      rw [hc, Int.sign_mul_natAbs]
    rw [this]

/-- The conversion of an exact value that is an integer `v` in the `int64_t` range: it is
`v`. -/
theorem Float32.toInt64_of_integer (m e v : Int)
    (hv : v * 2 ^ (-e).toNat = m * 2 ^ e.toNat) (hlo : -2 ^ 63 ≤ v) (hhi : v < 2 ^ 63) :
    (Float32.finite m e).toInt64 = some v := by
  have hval : (if 0 ≤ e then m * 2 ^ e.toNat else Int.tdiv m (2 ^ (-e).toNat)) = v := by
    split
    · rename_i he
      have h0 : (-e).toNat = 0 := by omega
      rw [h0, pow_zero, mul_one] at hv
      exact hv.symm
    · rename_i he
      have h0 : e.toNat = 0 := by omega
      rw [h0, pow_zero, mul_one] at hv
      rw [← hv]
      exact Int.mul_tdiv_cancel _ (by positivity)
  simp only [Float32.toInt64, hval, hlo, hhi, and_self, if_true]

/-- An exact value that is a non-zero integer of the `int64_t` range is far from
overflowing binary32. -/
theorem Float32.exponent_le_of_integer {m e v : Int} (hm : m ≠ 0)
    (hv : v * 2 ^ (-e).toNat = m * 2 ^ e.toNat) (hlo : -2 ^ 63 ≤ v) (hhi : v < 2 ^ 63) :
    e + bitLength m.natAbs ≤ 128 := by
  have hv64 : v.natAbs < 2 ^ 64 := by omega
  have hbv : bitLength v.natAbs ≤ 64 := bitLength_le hv64
  have habs : v.natAbs * 2 ^ (-e).toNat = m.natAbs * 2 ^ e.toNat := by
    have := congrArg Int.natAbs hv
    rw [Int.natAbs_mul, Int.natAbs_mul, Int.natAbs_pow, Int.natAbs_pow] at this
    exact this
  have hmn : m.natAbs ≠ 0 := fun h => hm (Int.natAbs_eq_zero.mp h)
  have hvn : v.natAbs ≠ 0 := by
    intro h
    rw [h, zero_mul] at habs
    have : 0 < m.natAbs * 2 ^ e.toNat := Nat.mul_pos (Nat.pos_of_ne_zero hmn) (by positivity)
    omega
  have hbl := congrArg bitLength habs
  rw [bitLength_mul_two_pow hvn, bitLength_mul_two_pow hmn] at hbl
  omega

/-- Where binary32 holds both `d` and the product exactly, the `float` product is the
exact product `pm * d * 2 ^ pe`, so that what is sent is the exact product with its
fractional part discarded. -/
theorem AdpfPerfHintMgr.sent_duration_exact (pm pe d : Int) (hpe : -149 ≤ pe)
    (hd : Float32.isExact d = true) (hd64 : d.natAbs < 2 ^ 64)
    (hp : Float32.isExact (pm * d) = true)
    (hpe' : pm * d ≠ 0 → pe + bitLength (pm * d).natAbs ≤ 128) :
    sent_duration (.finite pm pe) d true = (Float32.finite (pm * d) pe).toInt64 := by
  by_cases hd0 : d = 0
  · subst hd0
    simp only [sent_duration, if_true, Float32.ofInt64, Float32.ofDyadic_zero, Float32.mul,
      mul_zero, Float32.toInt64_zero]
  · have hb : bitLength d.natAbs ≤ 64 := bitLength_le hd64
    have hof := Float32.ofDyadic_of_isExact hd0 hd (by decide : (-149 : Int) ≤ 0)
      (by omega)
    have hmod : d.natAbs % 2 ^ (bitLength d.natAbs - 24) = 0 := by
      simpa [Float32.isExact] using hd
    have hm1 : Int.sign d * ↑(d.natAbs / 2 ^ (bitLength d.natAbs - 24))
        * 2 ^ (bitLength d.natAbs - 24) = d := by
      rw [mul_assoc]
      have hc : ((d.natAbs / 2 ^ (bitLength d.natAbs - 24) : Nat) : Int)
          * 2 ^ (bitLength d.natAbs - 24) = (d.natAbs : Int) := by
        exact_mod_cast Nat.div_mul_cancel (Nat.dvd_of_mod_eq_zero hmod)
      rw [hc, Int.sign_mul_natAbs]
    generalize Int.sign d * ↑(d.natAbs / 2 ^ (bitLength d.natAbs - 24)) = m₁ at hof hm1
    generalize bitLength d.natAbs - 24 = sh at hof hm1
    have hpd : pm * d = pm * m₁ * 2 ^ sh := by rw [mul_assoc, hm1]
    simp only [sent_duration, if_true, Float32.ofInt64, hof, Float32.mul, zero_add]
    by_cases h0 : pm * m₁ = 0
    · rw [hpd, h0, zero_mul, Float32.ofDyadic_zero, Float32.toInt64_zero,
        Float32.toInt64_zero]
    · have hex : Float32.isExact (pm * m₁) = true := by
        rw [← Float32.isExact_mul_two_pow (pm * m₁) sh, ← hpd]; exact hp
      have hbl : bitLength (pm * d).natAbs = bitLength (pm * m₁).natAbs + sh := by
        have habs : (pm * d).natAbs = (pm * m₁).natAbs * 2 ^ sh := by
          rw [hpd, Int.natAbs_mul, Int.natAbs_pow]; rfl
        rw [habs]
        exact bitLength_mul_two_pow (fun h => h0 (Int.natAbs_eq_zero.mp h)) sh
      have hpe'' := hpe' (by rw [hpd]; exact mul_ne_zero h0 (by positivity))
      rw [Float32.toInt64_ofDyadic_of_isExact hex (by omega) (by rw [hbl] at hpe''; omega),
        Float32.toInt64_shift, ← hpd]

namespace AdpfPerfHintMgr

theorem setWorkPeriodStartTimestampNanos_mgr (env : Env) (t : Int) (w : World) :
    (setWorkPeriodStartTimestampNanos env t w).mgr = w.mgr := by
  unfold setWorkPeriodStartTimestampNanos
  split
  · split <;> rfl
  · rfl

theorem setActualCpuDurationNanos_mgr (env : Env) (d : Int) (w : World) :
    (setActualCpuDurationNanos env d w).mgr = w.mgr := by
  unfold setActualCpuDurationNanos
  split
  · split <;> rfl
  · rfl

theorem setActualTotalDurationNanos_mgr (env : Env) (d : Int) (w : World) :
    (setActualTotalDurationNanos env d w).mgr = w.mgr := by
  unfold setActualTotalDurationNanos
  split
  · split <;> rfl
  · rfl

theorem reportActualWorkDuration_mgr (env : Env) (w : World) :
    (reportActualWorkDuration env w).mgr = w.mgr := by
  unfold reportActualWorkDuration
  split
  · split <;> rfl
  · rfl

theorem setActualGpuDurationNanos_mgr (env : Env) (d : Int) (b : Bool) {w w' : World}
    (h : setActualGpuDurationNanos env d b w = some w') : w'.mgr = w.mgr := by
  unfold setActualGpuDurationNanos at h
  split at h
  · split at h
    · split at h
      · obtain rfl := Option.some.inj h; rfl
      · exact absurd h (by simp)
    · obtain rfl := Option.some.inj h; rfl
  · obtain rfl := Option.some.inj h; rfl

/-- The target update writes no member but the cached target. -/
theorem updateTargetWorkDuration_mgr (env : Env) (t : Int) (w : World) :
    (updateTargetWorkDuration env t w).mgr =
      { w.mgr with
        target_work_duration_ :=
          (updateTargetWorkDuration env t w).mgr.target_work_duration_ } := by
  unfold updateTargetWorkDuration
  split
  · split
    · split
      · simp only [APerformanceHint_updateTargetWorkDuration]
        split <;> rfl
      · rfl
    · rfl
  · rfl

end AdpfPerfHintMgr

/-- Below API level 35 no call assigns a handle. -/
theorem Call.apply_consistent {env : Env} {c : Call} {w w' : World}
    (hcons : Consistent env w) (h : c.apply env w = some w') : Consistent env w' := by
  intro hapi
  have h35 : ¬ 35 ≤ env.ANDROID_API := by omega
  have hnone := hcons hapi
  cases c <;> simp only [Call.apply] at h
  case setActualGpuDurationNanos d b =>
    rw [setActualGpuDurationNanos_mgr env d b h]; exact hnone
  all_goals obtain rfl := Option.some.inj h
  · simp only [AdpfPerfHintMgr.initializePerformanceHintManager, if_neg h35]; exact hnone
  · simp only [AdpfPerfHintMgr.uninitializePerformanceHintManager, if_neg h35]; exact hnone
  · exact hnone
  · rw [setWorkPeriodStartTimestampNanos_mgr]; exact hnone
  · rw [setActualCpuDurationNanos_mgr]; exact hnone
  · rw [setActualTotalDurationNanos_mgr]; exact hnone
  · rw [updateTargetWorkDuration_mgr]; exact hnone
  · rw [reportActualWorkDuration_mgr]; exact hnone

/-- The constructor leaves handles non-null only where the platform calls are compiled
in. -/
theorem AdpfPerfHintMgr.new_consistent (env : Env) (tid : Int) (p : Platform) :
    Consistent env (AdpfPerfHintMgr.new env tid p) := by
  intro hapi
  have h35 : ¬ 35 ≤ env.ANDROID_API := by omega
  simp [AdpfPerfHintMgr.new, AdpfPerfHintMgr.initializePerformanceHintManager, h35]

/-- Every world that can arise has its handles non-null only where the platform calls
are compiled in. -/
theorem Reachable.consistent {env : Env} {w : World} (h : Reachable env w) :
    Consistent env w := by
  induction h with
  | new tid p => exact AdpfPerfHintMgr.new_consistent env tid p
  | call c w w' _ hc ih => exact Call.apply_consistent ih hc

/-! ## The GPU duration and the timestamp period -/

/-- The GPU setter on an active adapter: one platform setter call with `sent_duration`. -/
theorem AdpfPerfHintMgr.setActualGpuDurationNanos_active (env : Env) {w : World}
    {wd : Handle} (hact : w.mgr.active) (hcons : Consistent env w)
    (hw : w.mgr.work_duration_ = some wd) (d : Int) (b : Bool) :
    setActualGpuDurationNanos env d b w =
      (sent_duration w.mgr.gpu_timestamp_period_ d b).map (fun sent =>
        { w with platform := AWorkDuration_setActualGpuDurationNanos w.platform wd sent }) := by
  have h35 := api_of_active hcons hact
  obtain ⟨manager, session, wd', hm, hs, hw'⟩ := handles_of_active hact
  obtain rfl : wd' = wd := by rw [hw] at hw'; exact (Option.some.inj hw').symm
  simp only [setActualGpuDurationNanos, hm, hs, hw, h35, if_true]
  cases sent_duration w.mgr.gpu_timestamp_period_ d b <;> rfl

/-- C5 as stated fails: with the period set to 2.5, `setActualGpuDurationNanos(67108866,
true)` forwards 167772160, while 67108866 multiplied by 2.5 is 167772165 (the conversion of
the duration to `float` has already rounded it to 67108864). -/
theorem setActualGpuDurationNanos_product_rounded :
    setActualGpuDurationNanos envOk 67108866 true
        (setGpuTimestampPeriod (.finite 5 (-1)) World.started) =
      some { setGpuTimestampPeriod (.finite 5 (-1)) World.started with
        platform :=
          AWorkDuration_setActualGpuDurationNanos World.started.platform 3 167772160 } ∧
    (67108866 : Int) * 5 = 167772165 * 2 ∧ (167772160 : Int) ≠ 167772165 := by
  decide

/-- C5, as amended. On an active adapter `setActualGpuDurationNanos(d, false)` forwards
exactly `d` to the platform's GPU-duration setter, for every `d`.  With
`apply_multiplier` it forwards the binary32 product of the period and of `d` converted to
binary32, converted back to a 64-bit integer by discarding the fraction (and is undefined
where that conversion is).  For a period `pm * 2 ^ pe` this is the exact product with its
fraction discarded whenever binary32 holds both `d` and the product exactly (no non-zero
binary digit below the 24 leading ones), hence exactly the product when the product is
moreover a 64-bit integer.  With period 2.5, `(100, true)` forwards 250 and
`(100, false)` forwards 100. -/
theorem setActualGpuDurationNanos_forwards (env : Env) (w : World) (wd : Handle)
    (hact : w.mgr.active) (hcons : Consistent env w)
    (hw : w.mgr.work_duration_ = some wd) :
    (∀ d : Int, setActualGpuDurationNanos env d false w =
      some { w with platform := AWorkDuration_setActualGpuDurationNanos w.platform wd d }) ∧
    (∀ d : Int, setActualGpuDurationNanos env d true w =
      ((Float32.mul w.mgr.gpu_timestamp_period_ (Float32.ofInt64 d)).toInt64).map
        (fun sent =>
          { w with platform := AWorkDuration_setActualGpuDurationNanos w.platform wd sent })) ∧
    (∀ pm pe d : Int, w.mgr.gpu_timestamp_period_ = .finite pm pe →
      pm.natAbs < 2 ^ 24 → -149 ≤ pe → pe ≤ 40 → -2 ^ 63 ≤ d → d < 2 ^ 63 →
      Float32.isExact d = true → Float32.isExact (pm * d) = true →
      setActualGpuDurationNanos env d true w =
        ((Float32.finite (pm * d) pe).toInt64).map (fun sent =>
          { w with platform := AWorkDuration_setActualGpuDurationNanos w.platform wd sent })) ∧
    (∀ pm pe d v : Int, w.mgr.gpu_timestamp_period_ = .finite pm pe →
      -149 ≤ pe → -2 ^ 63 ≤ d → d < 2 ^ 63 →
      Float32.isExact d = true → Float32.isExact (pm * d) = true →
      v * 2 ^ (-pe).toNat = pm * d * 2 ^ pe.toNat → -2 ^ 63 ≤ v → v < 2 ^ 63 →
      setActualGpuDurationNanos env d true w =
        some { w with platform := AWorkDuration_setActualGpuDurationNanos w.platform wd v }) ∧
    (w.mgr.gpu_timestamp_period_ = .finite 5 (-1) →
      setActualGpuDurationNanos env 100 true w =
          some { w with
            platform := AWorkDuration_setActualGpuDurationNanos w.platform wd 250 } ∧
        setActualGpuDurationNanos env 100 false w =
          some { w with
            platform := AWorkDuration_setActualGpuDurationNanos w.platform wd 100 }) := by
  have hgpu := setActualGpuDurationNanos_active env hact hcons hw
  have hfalse : ∀ d : Int, setActualGpuDurationNanos env d false w =
      some { w with platform := AWorkDuration_setActualGpuDurationNanos w.platform wd d } := by
    intro d
    rw [hgpu d false]
    rfl
  have hexact : ∀ pm pe d v : Int, w.mgr.gpu_timestamp_period_ = .finite pm pe →
      -149 ≤ pe → -2 ^ 63 ≤ d → d < 2 ^ 63 →
      Float32.isExact d = true → Float32.isExact (pm * d) = true →
      v * 2 ^ (-pe).toNat = pm * d * 2 ^ pe.toNat → -2 ^ 63 ≤ v → v < 2 ^ 63 →
      setActualGpuDurationNanos env d true w =
        some { w with
          platform := AWorkDuration_setActualGpuDurationNanos w.platform wd v } := by
    intro pm pe d v hp hpe hdlo hdhi hd hpd hv hvlo hvhi
    rw [hgpu d true, hp,
      sent_duration_exact pm pe d hpe hd (by omega) hpd
        (fun h0 => Float32.exponent_le_of_integer h0 hv hvlo hvhi),
      Float32.toInt64_of_integer (pm * d) pe v hv hvlo hvhi]
    rfl
  refine ⟨hfalse, ?_, ?_, hexact, ?_⟩
  · intro d
    rw [hgpu d true]
    rfl
  · intro pm pe d hp hpm hpe hpe' hdlo hdhi hd hpd
    have hb : bitLength (pm * d).natAbs ≤ 88 := by
      apply bitLength_le
      rw [Int.natAbs_mul, show (88 : Nat) = 24 + 64 from rfl, pow_add]
      have hd64 : d.natAbs < 2 ^ 64 := by omega
      exact Nat.mul_lt_mul'' hpm hd64
    rw [hgpu d true, hp,
      sent_duration_exact pm pe d hpe hd (by omega) hpd (fun _ => by omega)]
  · intro hp
    exact ⟨hexact 5 (-1) 100 250 hp (by decide) (by decide) (by decide) (by decide)
      (by decide) (by decide) (by decide) (by decide), hfalse 100⟩

/-- C5 as amended, at an instance: the period set to 2.5 on the freshly constructed
adapter. -/
theorem setActualGpuDurationNanos_forwards_witness :
    setActualGpuDurationNanos envOk 100 true
        (setGpuTimestampPeriod (.finite 5 (-1)) World.started) =
      some { setGpuTimestampPeriod (.finite 5 (-1)) World.started with
        platform := AWorkDuration_setActualGpuDurationNanos World.started.platform 3 250 } ∧
    setActualGpuDurationNanos envOk 100 false
        (setGpuTimestampPeriod (.finite 5 (-1)) World.started) =
      some { setGpuTimestampPeriod (.finite 5 (-1)) World.started with
        platform := AWorkDuration_setActualGpuDurationNanos World.started.platform 3 100 } :=
  (setActualGpuDurationNanos_forwards envOk
    (setGpuTimestampPeriod (.finite 5 (-1)) World.started) 3
    (by decide) (by decide) (by decide)).2.2.2.2 (by decide)

end Adpf
